import Mathlib

/-!
Verification development for the clinic scheduling engine
(availability, booking validation, conflict detection, lifecycle).

The definitions below are shallow embeddings of the TypeScript source:
  * `server/services/agendaService.ts` (slot grid, blocking statuses,
    exact-key availability variant),
  * `server/services/patientService.ts` (duration-aware availability
    variant, `timeToMinutes`, `intervalsOverlap`, `TYPE_SLUG_MAP`),
  * `server/routes.ts` (booking schedule validation, track
    classification, `getTypeDuration`, conflict detection, the public
    reschedule endpoint),
  * `server/storage.ts` (`updateAppointmentStatuses`, the lifecycle
    advancer).
Times are modelled as minute / second counts (JavaScript numbers on
well-formed inputs); machine-level NaN behaviour on malformed strings is
out of scope, as every claim concerns well-formed `HH:MM[:SS]` strings.
-/

/-- Record of the `appointment_types` table: the fields consulted by the
engine (`shared/schema.ts`).  `durationMinutes` is an `Int` because the
schema places no positivity constraint on the column. -/
structure AppointmentType where
  name : String
  slug : String
  durationMinutes : Int
  isActive : Bool
deriving DecidableEq

/-- Record of the `appointments` table: the fields consulted by the
engine (`shared/schema.ts`). -/
structure Appointment where
  id : String
  patientId : String
  type : String
  date : String
  time : String
  professional : String
  status : String
  notes : String
deriving DecidableEq

/-- Record of the `service_schedules` table (`shared/schema.ts`). -/
structure ServiceSchedule where
  id : String
  professionalId : String
  weekday : Nat
  startTime : String
  endTime : String
  isActive : Bool
deriving DecidableEq

/-- A placeholder appointment used as the default of `List.getD`. -/
def dummyAppointment : Appointment :=
  ⟨"", "", "", "", "", "", "", ""⟩

/-- Character-level model of JavaScript `String.prototype.toLowerCase`,
covering ASCII letters plus the accented uppercase letters that occur in
this codebase's type and status names. -/
def jsToLowerChar (c : Char) : Char :=
  if 65 ≤ c.toNat && c.toNat ≤ 90 then Char.ofNat (c.toNat + 32)
  else if c = 'Ç' then 'ç'
  else if c = 'Ã' then 'ã'
  else if c = 'Õ' then 'õ'
  else if c = 'Á' then 'á'
  else if c = 'Â' then 'â'
  else if c = 'É' then 'é'
  else if c = 'Ê' then 'ê'
  else if c = 'Í' then 'í'
  else if c = 'Ó' then 'ó'
  else if c = 'Ú' then 'ú'
  else c

/-- Model of `s.toLowerCase()` (character-wise map, expressed over the
underlying character list so that the kernel can evaluate it). -/
def jsToLower (s : String) : String :=
  ⟨s.data.map jsToLowerChar⟩

/-- Splits a character list on a separator character, in the sense of
JavaScript `split` / Lean `String.splitOn` for a one-character
separator: `"a:b:" ↦ ["a", "b", ""]`. -/
def splitCharsOn (sep : Char) : List Char → List (List Char)
  | [] => [[]]
  | c :: cs =>
    match splitCharsOn sep cs with
    | [] => if c = sep then [[], []] else [[c]]
    | r :: rs => if c = sep then [] :: r :: rs else (c :: r) :: rs

/-- Model of `time.split(":")`. -/
def splitOnColon (s : String) : List String :=
  (splitCharsOn ':' s.data).map (fun l => ⟨l⟩)

/-- Model of JavaScript `Number(...)` on a string of decimal digits
(`none` on the empty or non-digit strings for which `Number` yields
`NaN`; `Number("") = 0` is handled at the use sites). -/
def digitsToNat? (s : String) : Option Nat :=
  if s.data ≠ [] && s.data.all (fun c => c.isDigit) then
    some (s.data.foldl (fun n c => n * 10 + (c.toNat - 48)) 0)
  else none

/-- Model of `String(n)` for the hour/minute fields (`n < 100` in every
use). -/
def natToString (n : Nat) : String :=
  if n < 10 then ⟨[Char.ofNat (48 + n)]⟩
  else ⟨[Char.ofNat (48 + n / 10), Char.ofNat (48 + n % 10)]⟩

/-- Model of `String(n).padStart(2, "0")`. -/
def pad2 (n : Nat) : String :=
  if n < 10 then "0" ++ natToString n else natToString n

/-- Function `timeToMinutes` from `patientService.ts`: split on ":", hours times
60 plus minutes, the missing minute component treated as 0. -/
def timeToMinutes (time : String) : Int :=
  let parts := splitOnColon time
  let hours : Nat := (digitsToNat? (parts.getD 0 "")).getD 0
  let minutes : Nat := (digitsToNat? (parts.getD 1 "")).getD 0
  (hours * 60 + minutes : Nat)

/-- Function `parseTime` from `routes.ts` (booking validation): same split on
":" computing `h * 60 + m`; identical to `timeToMinutes` on the
well-formed `HH:MM[:SS]` strings the routes receive. -/
def parseTime (t : String) : Int :=
  timeToMinutes t

/-- Model of `s.slice(0, n)` (the sources apply it to ASCII time
strings, where byte and character counting agree). -/
def takeChars (n : Nat) (s : String) : String :=
  ⟨s.data.take n⟩

/-- Constant `BLOCKING_STATUSES` from `agendaService.ts` / `patientService.ts`. -/
def BLOCKING_STATUSES : List String :=
  ["scheduled", "confirmed", "completed", "pending",
   "agendado", "confirmado", "concluido", "pendente"]

/-- Function `getEndHour` from `agendaService.ts` / `patientService.ts`:
Friday (weekday 5) closes at 13, every other day at 18. -/
def getEndHour (weekday : Nat) : Nat :=
  if weekday == 5 then 13 else 18

/-- The `while (currentMinutes < endMinutes)` loop of
`generateTimeSlotsForDay`, with an explicit fuel bound.  The loop runs at
most `(18*60 - 9*60) / 30 = 18` times, so fuel 64 is never exhausted. -/
def slotsFromAux : Nat → Nat → Nat → List String
  | 0, _, _ => []
  | fuel + 1, currentMinutes, endMinutes =>
    if currentMinutes < endMinutes then
      (pad2 (currentMinutes / 60) ++ ":" ++ pad2 (currentMinutes % 60)) ::
        slotsFromAux fuel (currentMinutes + 30) endMinutes
    else []

/-- Function `generateTimeSlotsForDay` from `agendaService.ts` /
`patientService.ts`: slots from 09:00, step 30 minutes, strictly before
the closing hour. -/
def generateTimeSlotsForDay (weekday : Nat) : List String :=
  slotsFromAux 64 (9 * 60) (getEndHour weekday * 60)

/-- Function `isWeekday` from `agendaService.ts` / `patientService.ts`:
Monday (1) through Friday (5). -/
def isWeekdayNum (day : Nat) : Bool :=
  1 ≤ day && day ≤ 5

/-- Function `getOccupiedSlots` from `agendaService.ts`: the set of
`date_HH:MM` keys of appointments whose lowercased status is blocking. -/
def getOccupiedSlots (appointments : List Appointment) : List String :=
  (appointments.filter
      (fun apt => BLOCKING_STATUSES.contains (jsToLower apt.status))).map
    (fun apt => apt.date ++ "_" ++ takeChars 5 apt.time)

/-- The per-day body of `getAvailableSlots` in `agendaService.ts`
(the variant `routes.ts` imports and serves): on a weekday, the grid
filtered by exact occupied-key lookup; weekends produce no entry.
The caller supplies the weekday of `dateStr` (the source derives it
with `dayjs`). -/
def agendaAvailableForDay (dateStr : String) (weekday : Nat)
    (appointments : List Appointment) : Option (List String) :=
  if isWeekdayNum weekday then
    let occupied := getOccupiedSlots appointments
    some ((generateTimeSlotsForDay weekday).filter
      (fun slot => !(occupied.contains (dateStr ++ "_" ++ slot))))
  else none

/-- Constant `TYPE_SLUG_MAP` from `patientService.ts`. -/
def TYPE_SLUG_MAP : List (String × String) :=
  [("aplicacao", "aplicacao"), ("tirzepatida", "tirzepatida"),
   ("aplicacao_tirzepatida", "tirzepatida"), ("consulta", "consulta"),
   ("retorno", "retorno")]

/-- Model of the record access `TYPE_SLUG_MAP[k]`. -/
def typeSlugMapGet (k : String) : Option String :=
  (TYPE_SLUG_MAP.find? (fun p => p.1 == k)).map (fun p => p.2)

/-- Model of `new Map(entries).get k`: the value of the last entry with
key `k` (later entries overwrite earlier ones), if any. -/
def mapGetLast (entries : List (String × Int)) (k : String) : Option Int :=
  (entries.reverse.find? (fun p => p.1 == k)).map (fun p => p.2)

/-- Model of `a || b` where `a` is a possibly-`undefined` JavaScript
number: `undefined` and `0` are falsy, every other number (negative ones
included) is truthy. -/
def jsOrInt (a : Option Int) (b : Int) : Int :=
  match a with
  | some v => if v == 0 then b else v
  | none => b

/-- Function `intervalsOverlap` from `patientService.ts`: half-open interval
overlap, `start1 < end2 && start2 < end1`. -/
def intervalsOverlap (start1 end1 start2 end2 : Int) : Bool :=
  start1 < end2 && start2 < end1

/-- The `OccupiedInterval` record of `patientService.ts`. -/
structure OccupiedInterval where
  date : String
  startMinutes : Int
  endMinutes : Int
deriving DecidableEq

/-- Function `getOccupiedIntervals` from `patientService.ts`: one interval per
blocking-status appointment; the duration comes from a name-keyed map
(lowercased names), looked up first under the `TYPE_SLUG_MAP` alias of
the lowercased appointment type, then under the lowercased type itself,
with fallback 30. -/
def getOccupiedIntervals (appointments : List Appointment)
    (appointmentTypes : List AppointmentType) : List OccupiedInterval :=
  let typeMap := appointmentTypes.map (fun t => (jsToLower t.name, t.durationMinutes))
  (appointments.filter
      (fun apt => BLOCKING_STATUSES.contains (jsToLower apt.status))).map
    (fun apt =>
      let startMinutes := timeToMinutes (takeChars 5 apt.time)
      let typeKey := (typeSlugMapGet (jsToLower apt.type)).getD (jsToLower apt.type)
      let duration := jsOrInt (mapGetLast typeMap typeKey)
        (jsOrInt (mapGetLast typeMap (jsToLower apt.type)) 30)
      ⟨apt.date, startMinutes, startMinutes + duration⟩)

/-- The requested-duration resolution of `getAvailableSlots` in
`patientService.ts`: 30 when no type is requested, otherwise the
`durationMinutes` of the first configured type whose lowercased name
equals the aliased lowercased request, `|| 30`. -/
def resolveRequestedDuration (tipo : Option String)
    (appointmentTypes : List AppointmentType) : Int :=
  match tipo with
  | none => 30
  | some t =>
    let typeSlug := (typeSlugMapGet (jsToLower t)).getD (jsToLower t)
    match appointmentTypes.find? (fun c => jsToLower c.name == typeSlug) with
    | some c => if c.durationMinutes == 0 then 30 else c.durationMinutes
    | none => 30

/-- The per-day body of `getAvailableSlots` in `patientService.ts`
(the duration-aware variant): on a weekday, keep a grid slot unless it
is today and already started (`slotStart <= now`), or its requested
interval overlaps an occupied interval of that date.  Weekends produce
no entry.  The caller supplies the weekday of `dateStr` and the
today/now data the source reads from `dayjs()`. -/
def patientAvailableForDay (dateStr : String) (weekday : Nat)
    (isToday : Bool) (nowMinutes : Int) (appointments : List Appointment)
    (appointmentTypes : List AppointmentType) (tipo : Option String) :
    Option (List String) :=
  if isWeekdayNum weekday then
    let occupiedIntervals := getOccupiedIntervals appointments appointmentTypes
    let requestedDuration := resolveRequestedDuration tipo appointmentTypes
    some ((generateTimeSlotsForDay weekday).filter (fun slot =>
      let slotStartMinutes := timeToMinutes slot
      let slotEndMinutes := slotStartMinutes + requestedDuration
      if isToday && slotStartMinutes ≤ nowMinutes then false
      else
        let dayIntervals := occupiedIntervals.filter (fun i => i.date == dateStr)
        !(dayIntervals.any (fun interval =>
          intervalsOverlap slotStartMinutes slotEndMinutes
            interval.startMinutes interval.endMinutes))))
  else none

/-- Function `isMedicalType` from `routes.ts` (authenticated booking route): the
lowercased type against a fixed list (whose capitalized entries are
unreachable, the probe being lowercased). -/
def isMedicalType (t : String) : Bool :=
  ["consulta", "retorno", "Consulta", "Retorno"].contains (jsToLower t)

/-- Function `isNursingType` from `routes.ts` (authenticated booking route). -/
def isNursingType (t : String) : Bool :=
  ["aplicacao", "tirzepatida", "aplicação", "aplicação tirzepatida"].contains (jsToLower t)

/-- Function `getTypeDuration` from `routes.ts`: first configured type whose slug
or name matches case-insensitively, `?.durationMinutes || 30`. -/
def getTypeDuration (typeSlug : String)
    (allAppointmentTypes : List AppointmentType) : Int :=
  match allAppointmentTypes.find? (fun t =>
      jsToLower t.slug == jsToLower typeSlug ||
      jsToLower t.name == jsToLower typeSlug) with
  | some t => if t.durationMinutes == 0 then 30 else t.durationMinutes
  | none => 30

/-- The same-day pre-filter before conflict checking in `routes.ts`:
same date and not cancelled. -/
def sameDayNonCancelled (allAppointments : List Appointment)
    (date : String) : List Appointment :=
  allAppointments.filter (fun a => a.date == date && a.status != "cancelled")

/-- The `hasConflict` computation of `routes.ts` (booking routes): some
same-day appointment whose interval overlaps the proposed one and whose
track matches the proposed track; an unclassified proposed type reaches
the final `return false`. -/
def hasConflict (newType : String) (newStartMinutes : Int)
    (allAppointmentTypes : List AppointmentType)
    (sameDayAppointments : List Appointment) : Bool :=
  let newDuration := getTypeDuration newType allAppointmentTypes
  let newEndMinutes := newStartMinutes + newDuration
  sameDayAppointments.any (fun a =>
    let existingStartMinutes := parseTime (takeChars 5 a.time)
    let existingDuration := getTypeDuration a.type allAppointmentTypes
    let existingEndMinutes := existingStartMinutes + existingDuration
    let overlaps := newStartMinutes < existingEndMinutes &&
      newEndMinutes > existingStartMinutes
    if !overlaps then false
    else if isMedicalType newType then isMedicalType a.type
    else if isNursingType newType then isNursingType a.type
    else false)

/-- User-facing message (a): no schedule rows for this weekday. -/
def msgScheduleMissing : String := "O profissional não atende neste dia da semana"

/-- User-facing message (b): rows exist but none is active. -/
def msgScheduleInactive : String := "A escala do profissional para este dia está inativa"

/-- User-facing message (c): active rows exist, none contains the time. -/
def msgOutsideScale : String := "Horário fora da escala do profissional"

/-- List `profSchedules` of the booking route: the schedule rows filtered to
the professional and weekday. -/
def profRows (professionalId : String) (weekday : Nat)
    (allSchedules : List ServiceSchedule) : List ServiceSchedule :=
  allSchedules.filter (fun s =>
    s.professionalId == professionalId && s.weekday == weekday)

/-- List `activeProfSchedules` of the booking route: the rows of `profRows`
with `isActive`. -/
def activeRows (professionalId : String) (weekday : Nat)
    (allSchedules : List ServiceSchedule) : List ServiceSchedule :=
  (profRows professionalId weekday allSchedules).filter (fun s => s.isActive)

/-- The schedule-validation block of `POST /api/appointments`
(`routes.ts` lines 429–461): filter to professional and weekday, then
the three-way check; success (`none`) exactly when some active row has
`bookingMinutes >= start && bookingMinutes < end`. -/
def validateSchedule (professionalId : String) (weekday : Nat)
    (time : String) (allSchedules : List ServiceSchedule) : Option String :=
  if (profRows professionalId weekday allSchedules).length == 0 then
    some msgScheduleMissing
  else if (activeRows professionalId weekday allSchedules).length == 0 then
    some msgScheduleInactive
  else
    let bookingMinutes := parseTime time
    if (activeRows professionalId weekday allSchedules).any (fun s =>
        bookingMinutes ≥ parseTime s.startTime &&
        bookingMinutes < parseTime s.endTime)
    then none
    else some msgOutsideScale

/-- Modelled from the spec (for comparison with `validateSchedule`):
the containment condition the claim states for the schedule check —
some active row of the professional and weekday with
`proposedStart >= window.start` and `proposedEnd <= window.end`. -/
def claimScheduleOk (professionalId : String) (weekday : Nat)
    (proposedStart proposedEnd : Int)
    (allSchedules : List ServiceSchedule) : Bool :=
  (allSchedules.filter (fun s =>
      s.professionalId == professionalId && s.weekday == weekday &&
      s.isActive)).any
    (fun s => proposedStart ≥ parseTime s.startTime &&
      proposedEnd ≤ parseTime s.endTime)

/-- Function `storage.updateAppointment` restricted to the partial record that
the public reschedule endpoint passes: overwrite `date`, `time`,
`status` of every row with the id, keep all other fields. -/
def rescheduleUpdate (appts : List Appointment)
    (id data hora : String) : List Appointment :=
  appts.map (fun a =>
    if a.id == id then { a with date := data, time := hora, status := "scheduled" }
    else a)

/-- Endpoint `PATCH /api/agenda/alterar-agendamento` (`routes.ts` 1052–1073):
`none` (HTTP 404) when the id is unknown, otherwise overwrite date and
time and set status back to "scheduled".  The handler consults neither
service schedules nor other appointments: no weekly-schedule validation
and no conflict detection happens on this path. -/
def alterarAgendamento (appts : List Appointment)
    (id data hora : String) : Option (List Appointment) :=
  match appts.find? (fun a => a.id == id) with
  | none => none
  | some _ => some (rescheduleUpdate appts id data hora)

/-- The `now`-derived values `updateAppointmentStatuses` in `storage.ts`
reads: `date` is `format(now, "yyyy-MM-dd")`, `time` is
`format(now, "HH:mm:ss")`, and `sec` is the second-of-day of `now`,
which decides the `now >= endTime` comparison of step 2 (the code
builds `endTime` on today's date from the appointment's HH:MM). -/
structure Clock where
  date : String
  time : String
  sec : Int
deriving DecidableEq

/-- Lexicographic order on character lists, by code point. -/
def charsLE : List Char → List Char → Bool
  | [], _ => true
  | _ :: _, [] => false
  | c :: cs, d :: ds =>
    if c.toNat < d.toNat then true
    else if d.toNat < c.toNat then false
    else charsLE cs ds

/-- The SQL comparison `lte(appointments.time, currentTime)`: on the
fixed-width `HH:MM:SS` strings of the `time` column, the chronological
order is the lexicographic one. -/
def timeStrLE (a b : String) : Bool :=
  charsLE a.data b.data

/-- The row-wise effect of step 1's SQL `update`: an appointment dated
today with `time <= currentTime` and status "scheduled" becomes
"in_progress"; any other row is untouched. -/
def step1Apt (clock : Clock) (a : Appointment) : Appointment :=
  if a.date == clock.date && timeStrLE a.time clock.time && a.status == "scheduled"
  then { a with status := "in_progress" } else a

/-- Step 1 of `updateAppointmentStatuses`, applied to the whole table. -/
def step1 (clock : Clock) (appts : List Appointment) : List Appointment :=
  appts.map (step1Apt clock)

/-- The duration lookup of step 2 in `storage.ts`:
`new Map(types.map(t => [t.name, t.durationMinutes])).get(apt.type) || 30`
— exact, case-sensitive name keys; later duplicate names overwrite. -/
def lifecycleDuration (types : List AppointmentType) (aptType : String) : Int :=
  jsOrInt (mapGetLast (types.map (fun t => (t.name, t.durationMinutes))) aptType) 30

/-- The end instant step 2 computes, in seconds of today: the code takes
the appointment's hours and minutes (`setHours(hours, minutes, 0, 0)`
zeroes the seconds) on today's date and adds `duration` minutes. -/
def aptEndSec (types : List AppointmentType) (a : Appointment) : Int :=
  timeToMinutes a.time * 60 + lifecycleDuration types a.type * 60

/-- The row-wise effect of step 2: an appointment (of any date) with
status "in_progress" becomes "attended" once `now >= endTime`; any
other row is untouched. -/
def step2Apt (types : List AppointmentType) (nowSec : Int)
    (a : Appointment) : Appointment :=
  if a.status == "in_progress" && nowSec ≥ aptEndSec types a
  then { a with status := "attended" } else a

/-- Step 2 of `updateAppointmentStatuses`, applied to the whole table. -/
def step2 (types : List AppointmentType) (nowSec : Int)
    (appts : List Appointment) : List Appointment :=
  appts.map (step2Apt types nowSec)

/-- Function `updateAppointmentStatuses` from `storage.ts` as a pure transformer
of the appointments table: step 1 (scheduled → in_progress), then
step 2 (in_progress → attended), reading the same wall clock.  Step 2's
`select` runs after step 1's `update`, so an appointment promoted by
step 1 is visible to step 2 within the same run, as in the source. -/
def updateAppointmentStatuses (types : List AppointmentType)
    (clock : Clock) (appts : List Appointment) : List Appointment :=
  step2 types clock.sec (step1 clock appts)

/-- Modelled from the spec: the §9 normalization that underlies the
spec's "accent-insensitive" classification — lowercase, then strip the
Portuguese diacritics. -/
def stripDiacriticChar (c : Char) : Char :=
  if c = 'ç' then 'c'
  else if c = 'ã' then 'a'
  else if c = 'á' then 'a'
  else if c = 'â' then 'a'
  else if c = 'à' then 'a'
  else if c = 'é' then 'e'
  else if c = 'ê' then 'e'
  else if c = 'í' then 'i'
  else if c = 'ó' then 'o'
  else if c = 'õ' then 'o'
  else if c = 'ô' then 'o'
  else if c = 'ú' then 'u'
  else c

/-- Modelled from the spec: lowercase plus diacritic strip (§9's single
normalization function). -/
def specNormalize (s : String) : String :=
  ⟨(jsToLower s).data.map stripDiacriticChar⟩

/-- The Monday–Thursday slot grid, as a literal list. -/
def regularGrid : List String :=
  ["09:00", "09:30", "10:00", "10:30", "11:00", "11:30", "12:00", "12:30",
   "13:00", "13:30", "14:00", "14:30", "15:00", "15:30", "16:00", "16:30",
   "17:00", "17:30"]

/-- The Friday slot grid, as a literal list. -/
def fridayGrid : List String :=
  ["09:00", "09:30", "10:00", "10:30", "11:00", "11:30", "12:00", "12:30"]

lemma slots_of_five : generateTimeSlotsForDay 5 = fridayGrid := by decide

lemma slots_of_ne_five {w : Nat} (h : w ≠ 5) :
    generateTimeSlotsForDay w = regularGrid := by
  have hb : (w == 5) = false := by simpa using h
  unfold generateTimeSlotsForDay getEndHour
  rw [hb]
  decide

lemma grid_sorted (w : Nat) :
    List.Pairwise (fun a b => timeToMinutes a < timeToMinutes b)
      (generateTimeSlotsForDay w) := by
  by_cases h : w = 5
  · subst h; rw [slots_of_five]; decide
  · rw [slots_of_ne_five h]; decide

/-- C8: `intervalsOverlap` is the half-open overlap test
`startA < endB && startB < endA`; intervals that merely touch at an
endpoint do not overlap, and the test is symmetric in its two interval
arguments. -/
theorem intervalsOverlap_spec (a b c d : Int) :
    (intervalsOverlap a b c d = true ↔ a < d ∧ c < b) ∧
    intervalsOverlap a b c d = intervalsOverlap c d a b ∧
    intervalsOverlap a b b d = false ∧
    intervalsOverlap a b c a = false := by
  refine ⟨?_, ?_, ?_, ?_⟩ <;>
    simp [intervalsOverlap, Bool.and_comm, and_comm]

/-- C9: the candidate slot grid starts at 09:00, steps by 30 minutes
and stops strictly before the close (13:00 on Friday, 18:00 otherwise);
every slot is a multiple of 30 minutes past 09:00 and strictly before
the close; a Friday with no existing appointments yields exactly
09:00, 09:30, …, 12:30 from the duration-aware availability
computation. -/
theorem slotGrid_spec :
    (∀ weekday : Nat, generateTimeSlotsForDay weekday =
      if weekday == 5 then fridayGrid else regularGrid) ∧
    (∀ weekday : Nat, (generateTimeSlotsForDay weekday).all (fun slot =>
      decide (540 ≤ timeToMinutes slot) &&
      decide (timeToMinutes slot < (getEndHour weekday : Int) * 60) &&
      decide ((timeToMinutes slot - 540) % 30 = 0)) = true) ∧
    patientAvailableForDay "2024-03-08" 5 false 0 [] [] none = some fridayGrid := by
  refine ⟨?_, ?_, by decide⟩
  · intro w
    by_cases h : w = 5
    · subst h; rw [slots_of_five]; simp
    · have hb : (w == 5) = false := by simpa using h
      rw [slots_of_ne_five h, hb]
      simp
  · intro w
    by_cases h : w = 5
    · subst h; decide
    · have hb : (w == 5) = false := by simpa using h
      rw [slots_of_ne_five h]
      unfold getEndHour
      rw [hb]
      decide

lemma update_eq_map (types : List AppointmentType) (clock : Clock)
    (appts : List Appointment) :
    updateAppointmentStatuses types clock appts =
      appts.map (fun a => step2Apt types clock.sec (step1Apt clock a)) := by
  simp [updateAppointmentStatuses, step1, step2, List.map_map]

lemma step1Apt_of_not_scheduled {clock : Clock} {a : Appointment}
    (h : (a.status == "scheduled") = false) : step1Apt clock a = a := by
  simp [step1Apt, h]

lemma step2Apt_of_not_inprogress {types : List AppointmentType}
    {nowSec : Int} {a : Appointment}
    (h : (a.status == "in_progress") = false) : step2Apt types nowSec a = a := by
  simp [step2Apt, h]

lemma advanceApt_terminal {types : List AppointmentType} {clock : Clock}
    {a : Appointment}
    (h : a.status = "cancelled" ∨ a.status = "attended") :
    step2Apt types clock.sec (step1Apt clock a) = a := by
  rcases h with h | h <;>
    rw [step1Apt_of_not_scheduled (by rw [h]; decide),
      step2Apt_of_not_inprogress (by rw [h]; decide)]

lemma advance_dummy (types : List AppointmentType) (clock : Clock) :
    step2Apt types clock.sec (step1Apt clock dummyAppointment) =
      dummyAppointment := by
  rw [step1Apt_of_not_scheduled (by decide),
    step2Apt_of_not_inprogress (by decide)]

lemma getD_map_of_fixed (f : Appointment → Appointment)
    (l : List Appointment) (i : Nat)
    (hf : f dummyAppointment = dummyAppointment) :
    (l.map f).getD i dummyAppointment = f (l.getD i dummyAppointment) := by
  induction l generalizing i with
  | nil => simp [hf]
  | cons a l ih =>
    cases i with
    | zero => simp
    | succ n => simpa using ih n

lemma advanceApt_inprogress {types : List AppointmentType} {clock : Clock}
    {a : Appointment} (h : a.status = "in_progress") :
    step2Apt types clock.sec (step1Apt clock a) =
      if clock.sec ≥ aptEndSec types a
      then { a with status := "attended" } else a := by
  rw [step1Apt_of_not_scheduled (by rw [h]; decide)]
  by_cases h2 : clock.sec ≥ aptEndSec types a
  · simp [step2Apt, h, h2]
  · simp [step2Apt, h2]

lemma advanceApt_idem (types : List AppointmentType) (clock : Clock)
    (a : Appointment) :
    step2Apt types clock.sec (step1Apt clock
      (step2Apt types clock.sec (step1Apt clock a))) =
    step2Apt types clock.sec (step1Apt clock a) := by
  cases h1 : (a.date == clock.date && timeStrLE a.time clock.time &&
      a.status == "scheduled") with
  | false =>
    have hb : step1Apt clock a = a := by simp [step1Apt, h1]
    rw [hb]
    cases h2 : (a.status == "in_progress" && decide (clock.sec ≥ aptEndSec types a)) with
    | false =>
      have hc : step2Apt types clock.sec a = a := by simp [step2Apt, h2]
      rw [hc, hb, hc]
    | true =>
      have hc : step2Apt types clock.sec a = { a with status := "attended" } := by
        simp [step2Apt, h2]
      rw [hc, step1Apt_of_not_scheduled (by rfl),
        step2Apt_of_not_inprogress (by rfl)]
  | true =>
    have hb : step1Apt clock a = { a with status := "in_progress" } := by
      simp [step1Apt, h1]
    rw [hb]
    by_cases h2 : clock.sec ≥ aptEndSec types { a with status := "in_progress" }
    · have hc : step2Apt types clock.sec { a with status := "in_progress" } =
          { a with status := "attended" } := by
        simp [step2Apt, h2]
      rw [hc, step1Apt_of_not_scheduled (by rfl),
        step2Apt_of_not_inprogress (by rfl)]
    · have hc : step2Apt types clock.sec { a with status := "in_progress" } =
          { a with status := "in_progress" } := by
        simp [step2Apt, h2]
      rw [hc, step1Apt_of_not_scheduled (by rfl), hc]

/-- C4: the lifecycle advancer never mutates an appointment whose
status is "cancelled" or "attended": the terminal record at any table
position is returned unchanged, whatever the clock says. -/
theorem lifecycle_terminal_stable (types : List AppointmentType)
    (clock : Clock) (appts : List Appointment) (i : Nat)
    (hterm : (appts.getD i dummyAppointment).status = "cancelled" ∨
      (appts.getD i dummyAppointment).status = "attended") :
    (updateAppointmentStatuses types clock appts).getD i dummyAppointment =
      appts.getD i dummyAppointment := by
  rw [update_eq_map, getD_map_of_fixed _ _ _ (advance_dummy types clock)]
  exact advanceApt_terminal hterm

/-- Witness for C4: a cancelled appointment dated today whose time has
long passed is untouched by the advancer. -/
theorem lifecycle_terminal_stable_witness :
    (updateAppointmentStatuses []
        ⟨"2024-03-04", "12:00:00", 43200⟩
        [⟨"a1", "p1", "consulta", "2024-03-04", "09:00:00", "Dr",
          "cancelled", ""⟩]).getD 0 dummyAppointment =
      ([⟨"a1", "p1", "consulta", "2024-03-04", "09:00:00", "Dr",
          "cancelled", ""⟩] : List Appointment).getD 0 dummyAppointment :=
  lifecycle_terminal_stable [] ⟨"2024-03-04", "12:00:00", 43200⟩
    [⟨"a1", "p1", "consulta", "2024-03-04", "09:00:00", "Dr",
      "cancelled", ""⟩] 0 (Or.inl rfl)

/-- C5: running the lifecycle advancer twice at the same wall-clock
instant yields the same table as running it once. -/
theorem lifecycle_idempotent (types : List AppointmentType) (clock : Clock)
    (appts : List Appointment) :
    updateAppointmentStatuses types clock
        (updateAppointmentStatuses types clock appts) =
      updateAppointmentStatuses types clock appts := by
  rw [update_eq_map, update_eq_map]
  induction appts with
  | nil => rfl
  | cons a l ih =>
    simp only [List.map_cons, List.cons.injEq] at *
    exact ⟨advanceApt_idem types clock a, ih⟩

/-- C7 counterexample: the advancer does NOT resolve durations with the
§4.2 resolver (case-insensitive slug/name match).  Configured type:
name "Consulta", slug "consulta", 60 minutes.  An in-progress
appointment of type "consulta" (lowercase) started at 10:00; now is
10:40 (sec 38400).  The §4.2 resolver gives 60 minutes, so the
claimed endTime 11:00 has not been reached — yet the advancer, whose
lookup is an exact case-sensitive name match, falls back to 30 minutes
and marks the appointment "attended". -/
theorem lifecycle_resolver_counterexample :
    (updateAppointmentStatuses [⟨"Consulta", "consulta", 60, true⟩]
        ⟨"2024-03-04", "10:40:00", 38400⟩
        [⟨"a1", "p1", "consulta", "2024-03-04", "10:00:00", "Dr",
          "in_progress", ""⟩]).map (fun a => a.status) = ["attended"] ∧
    (38400 : Int) <
      (timeToMinutes "10:00" +
        getTypeDuration "consulta" [⟨"Consulta", "consulta", 60, true⟩]) * 60 := by
  exact ⟨by decide, by decide⟩

/-- C7 (amended): for every in-progress appointment the advancer keeps
id/date/time/type, resolves the duration by exact case-sensitive match
on the configured type NAME only (`typeMap.get(apt.type) || 30`), takes
`endTime = startTime + duration` built from the appointment's HH:MM on
today's date, and transitions to "attended" exactly when
`now >= endTime`. -/
theorem lifecycle_step2_spec (types : List AppointmentType) (clock : Clock)
    (appts : List Appointment) (i : Nat)
    (h : (appts.getD i dummyAppointment).status = "in_progress") :
    ((updateAppointmentStatuses types clock appts).getD i dummyAppointment).status =
      (if clock.sec ≥ aptEndSec types (appts.getD i dummyAppointment)
       then "attended" else "in_progress") ∧
    ((updateAppointmentStatuses types clock appts).getD i dummyAppointment).time =
      (appts.getD i dummyAppointment).time ∧
    ((updateAppointmentStatuses types clock appts).getD i dummyAppointment).date =
      (appts.getD i dummyAppointment).date ∧
    ((updateAppointmentStatuses types clock appts).getD i dummyAppointment).type =
      (appts.getD i dummyAppointment).type ∧
    ((updateAppointmentStatuses types clock appts).getD i dummyAppointment).id =
      (appts.getD i dummyAppointment).id ∧
    aptEndSec types (appts.getD i dummyAppointment) =
      (timeToMinutes (appts.getD i dummyAppointment).time +
        lifecycleDuration types (appts.getD i dummyAppointment).type) * 60 := by
  rw [update_eq_map, getD_map_of_fixed _ _ _ (advance_dummy types clock),
    advanceApt_inprogress h]
  by_cases h2 : clock.sec ≥ aptEndSec types (appts.getD i dummyAppointment)
  · rw [if_pos h2, if_pos h2]
    refine ⟨rfl, rfl, rfl, rfl, rfl, ?_⟩
    unfold aptEndSec
    ring
  · rw [if_neg h2, if_neg h2]
    refine ⟨h, rfl, rfl, rfl, rfl, ?_⟩
    unfold aptEndSec
    ring

/-- Witness for C7: an in-progress appointment at 10:00 with unmatched
type (fallback 30 minutes) is attended at 10:40. -/
theorem lifecycle_step2_spec_witness :
    ((updateAppointmentStatuses [] ⟨"2024-03-04", "10:40:00", 38400⟩
        [⟨"a1", "p1", "consulta", "2024-03-04", "10:00:00", "Dr",
          "in_progress", ""⟩]).getD 0 dummyAppointment).status =
      (if (38400 : Int) ≥ aptEndSec []
          (([⟨"a1", "p1", "consulta", "2024-03-04", "10:00:00", "Dr",
            "in_progress", ""⟩] : List Appointment).getD 0 dummyAppointment)
       then "attended" else "in_progress") :=
  (lifecycle_step2_spec [] ⟨"2024-03-04", "10:40:00", 38400⟩
    [⟨"a1", "p1", "consulta", "2024-03-04", "10:00:00", "Dr",
      "in_progress", ""⟩] 0 rfl).1

/-- C2 counterexample: the schedule check succeeds on a 09:00–18:00
active window at 17:45 although the claimed containment condition
(start ≥ window start and start + resolved duration ≤ window end,
duration resolved to 30) is false: the code only tests the start
(`bookingMinutes >= start && bookingMinutes < end`), ignoring the
duration. -/
theorem validateSchedule_counterexample :
    validateSchedule "p1" 1 "17:45" [⟨"s1", "p1", 1, "09:00", "18:00", true⟩] = none ∧
    getTypeDuration "consulta" [] = 30 ∧
    claimScheduleOk "p1" 1 (parseTime "17:45") (parseTime "17:45" + 30)
      [⟨"s1", "p1", 1, "09:00", "18:00", true⟩] = false := by
  refine ⟨by decide, by decide, by decide⟩

/-- C2 (amended): the booking-time schedule validator distinguishes the
three failure modes with three pairwise-distinct user-facing messages —
no rows for the weekday, rows but none active, active rows but none
containing the time — and succeeds exactly when some active row has
`proposedStart >= window.start` and `proposedStart < window.end`; the
proposed END (start + duration) plays no part in the check. -/
theorem validateSchedule_spec (professionalId : String) (weekday : Nat)
    (time : String) (allSchedules : List ServiceSchedule) :
    (validateSchedule professionalId weekday time allSchedules =
        some msgScheduleMissing ↔
      profRows professionalId weekday allSchedules = []) ∧
    (validateSchedule professionalId weekday time allSchedules =
        some msgScheduleInactive ↔
      profRows professionalId weekday allSchedules ≠ [] ∧
      activeRows professionalId weekday allSchedules = []) ∧
    (validateSchedule professionalId weekday time allSchedules = none ↔
      ∃ s ∈ activeRows professionalId weekday allSchedules,
        parseTime s.startTime ≤ parseTime time ∧
        parseTime time < parseTime s.endTime) ∧
    (validateSchedule professionalId weekday time allSchedules =
        some msgOutsideScale ↔
      activeRows professionalId weekday allSchedules ≠ [] ∧
      ¬ ∃ s ∈ activeRows professionalId weekday allSchedules,
        parseTime s.startTime ≤ parseTime time ∧
        parseTime time < parseTime s.endTime) ∧
    msgScheduleMissing ≠ msgScheduleInactive ∧
    msgScheduleMissing ≠ msgOutsideScale ∧
    msgScheduleInactive ≠ msgOutsideScale := by
  have hact : ∀ h : profRows professionalId weekday allSchedules = [],
      activeRows professionalId weekday allSchedules = [] := by
    intro h
    simp [activeRows, h]
  by_cases h0 : profRows professionalId weekday allSchedules = []
  · have hr : validateSchedule professionalId weekday time allSchedules =
        some msgScheduleMissing := by
      unfold validateSchedule
      rw [if_pos (by simp [h0])]
    rw [hr]
    refine ⟨by simp [h0], ?_, ?_, ?_, by decide, by decide, by decide⟩
    · constructor
      · intro he
        exact absurd (Option.some.injEq _ _ ▸ he) (by decide)
      · intro he
        exact absurd h0 he.1
    · constructor
      · intro he
        cases he
      · intro he
        rcases he with ⟨s, hs, _⟩
        rw [hact h0] at hs
        cases hs
    · constructor
      · intro he
        exact absurd (Option.some.injEq _ _ ▸ he) (by decide)
      · intro he
        exact absurd (hact h0) he.1
  · by_cases h1 : activeRows professionalId weekday allSchedules = []
    · have hr : validateSchedule professionalId weekday time allSchedules =
          some msgScheduleInactive := by
        unfold validateSchedule
        rw [if_neg (by simp [List.length_eq_zero, h0]), if_pos (by simp [h1])]
      rw [hr]
      refine ⟨?_, by simp [h0, h1], ?_, ?_, by decide, by decide, by decide⟩
      · constructor
        · intro he
          exact absurd (Option.some.injEq _ _ ▸ he) (by decide)
        · intro he
          exact absurd he h0
      · constructor
        · intro he
          cases he
        · intro he
          rcases he with ⟨s, hs, _⟩
          rw [h1] at hs
          cases hs
      · constructor
        · intro he
          exact absurd (Option.some.injEq _ _ ▸ he) (by decide)
        · intro he
          exact absurd h1 he.1
    · have hbool : ((activeRows professionalId weekday allSchedules).any (fun s =>
          parseTime time ≥ parseTime s.startTime &&
          parseTime time < parseTime s.endTime)) = true ↔
          ∃ s ∈ activeRows professionalId weekday allSchedules,
            parseTime s.startTime ≤ parseTime time ∧
            parseTime time < parseTime s.endTime := by
        simp [List.any_eq_true, ge_iff_le]
      by_cases h2 : ∃ s ∈ activeRows professionalId weekday allSchedules,
          parseTime s.startTime ≤ parseTime time ∧
          parseTime time < parseTime s.endTime
      · have hr : validateSchedule professionalId weekday time allSchedules =
            none := by
          unfold validateSchedule
          rw [if_neg (by simp [List.length_eq_zero, h0]),
            if_neg (by simp [List.length_eq_zero, h1])]
          simp only []
          rw [if_pos (hbool.mpr h2)]
        rw [hr]
        refine ⟨?_, ?_, by simp [h2], ?_, by decide, by decide, by decide⟩
        · exact ⟨fun he => Option.noConfusion he, fun he => absurd he h0⟩
        · exact ⟨fun he => Option.noConfusion he, fun he => absurd he.2 h1⟩
        · exact ⟨fun he => Option.noConfusion he, fun he => absurd h2 he.2⟩
      · have hr : validateSchedule professionalId weekday time allSchedules =
            some msgOutsideScale := by
          unfold validateSchedule
          rw [if_neg (by simp [List.length_eq_zero, h0]),
            if_neg (by simp [List.length_eq_zero, h1])]
          simp only []
          rw [if_neg (fun hb => h2 (hbool.mp hb))]
        rw [hr]
        refine ⟨?_, ?_, ?_, by simp [h1, h2], by decide, by decide, by decide⟩
        · constructor
          · intro he
            exact absurd (Option.some.injEq _ _ ▸ he) (by decide)
          · intro he
            exact absurd he h0
        · constructor
          · intro he
            exact absurd (Option.some.injEq _ _ ▸ he) (by decide)
          · intro he
            exact absurd he.2 h1
        · constructor
          · intro he
            cases he
          · intro he
            exact absurd he h2

/-- Witness for C2: with no schedule rows at all, the validator reports
the "does not work this day" message. -/
theorem validateSchedule_spec_witness :
    validateSchedule "p1" 6 "10:00" [] = some msgScheduleMissing :=
  (validateSchedule_spec "p1" 6 "10:00" []).1.mpr (by decide)

/-- C6 counterexample: `getTypeDuration` applies no type-alias mapping —
with only the category type (name "Aplicação Tirzepatida", slug
"aplicacao_tirzepatida", 45 min) configured, the identifier
"tirzepatida" falls back to 30 instead of resolving to 45; and a
negative configured duration is returned as-is (only 0 is caught by
`|| 30`), contradicting "never returns 0 or a negative number". -/
theorem getTypeDuration_counterexample :
    getTypeDuration "tirzepatida"
      [⟨"Aplicação Tirzepatida", "aplicacao_tirzepatida", 45, true⟩] = 30 ∧
    getTypeDuration "x" [⟨"x", "x", -5, true⟩] = -5 := by
  refine ⟨by decide, by decide⟩

/-- C6 (amended): duration resolution matches the identifier
case-insensitively against both slug and name (any two identifiers with
the same lowercasing resolve alike), applies NO alias mapping, returns
30 when no type matches, and returns a positive number whenever every
configured duration is nonnegative (a configured 0 falls back to 30; a
negative configured duration would be passed through). -/
theorem getTypeDuration_spec (typeIdentifier : String)
    (types : List AppointmentType) :
    ((∀ t ∈ types, jsToLower t.slug ≠ jsToLower typeIdentifier ∧
        jsToLower t.name ≠ jsToLower typeIdentifier) →
      getTypeDuration typeIdentifier types = 30) ∧
    ((∀ t ∈ types, 0 ≤ t.durationMinutes) →
      0 < getTypeDuration typeIdentifier types) ∧
    (∀ s u : String, jsToLower s = jsToLower u →
      getTypeDuration s types = getTypeDuration u types) := by
  refine ⟨?_, ?_, ?_⟩
  · intro h
    unfold getTypeDuration
    have hf : types.find? (fun t =>
        jsToLower t.slug == jsToLower typeIdentifier ||
        jsToLower t.name == jsToLower typeIdentifier) = none := by
      rw [List.find?_eq_none]
      intro t ht
      simp [(h t ht).1, (h t ht).2]
    rw [hf]
  · intro h
    unfold getTypeDuration
    cases hf : types.find? (fun t =>
        jsToLower t.slug == jsToLower typeIdentifier ||
        jsToLower t.name == jsToLower typeIdentifier) with
    | none => norm_num
    | some t =>
      have ht : t ∈ types := List.mem_of_find?_eq_some hf
      have hd := h t ht
      show 0 < (if (t.durationMinutes == 0) = true then 30 else t.durationMinutes)
      by_cases h0 : t.durationMinutes = 0
      · simp [h0]
      · rw [if_neg (by simpa using h0)]
        omega
  · intro s u hsu
    unfold getTypeDuration
    rw [hsu]

/-- Witness for C6: an unmatched identifier resolves to the positive
fallback 30. -/
theorem getTypeDuration_spec_witness :
    getTypeDuration "inexistente" [] = 30 ∧
    0 < getTypeDuration "inexistente" [] :=
  ⟨(getTypeDuration_spec "inexistente" []).1 (by simp),
   (getTypeDuration_spec "inexistente" []).2.1 (by simp)⟩

lemma nursing_not_medical {t : String} (h : isNursingType t = true) :
    isMedicalType t = false := by
  simp only [isNursingType, List.contains, List.elem_eq_mem, decide_eq_true_eq,
    List.mem_cons, List.not_mem_nil, or_false] at h
  unfold isMedicalType
  rcases h with h | h | h | h <;> rw [h] <;> decide

lemma medical_not_nursing {t : String} (h : isMedicalType t = true) :
    isNursingType t = false := by
  simp only [isMedicalType, List.contains, List.elem_eq_mem, decide_eq_true_eq,
    List.mem_cons, List.not_mem_nil, or_false] at h
  unfold isNursingType
  rcases h with h | h | h | h <;> rw [h] <;> decide

/-- C3 counterexample: classification is NOT accent-insensitive.  The
two strings "aplicação tirzepatida" and "aplicacao tirzepatida" have
the same spec normalization (lowercase + diacritic strip), yet only the
accented one is classified as nursing: the code lowercases but never
strips diacritics, and the fixed list carries no unaccented variant of
the two-word name. -/
theorem conflict_accent_counterexample :
    specNormalize "aplicação tirzepatida" = specNormalize "aplicacao tirzepatida" ∧
    isNursingType "aplicação tirzepatida" = true ∧
    isNursingType "aplicacao tirzepatida" = false := by
  refine ⟨by decide, by decide, by decide⟩

/-- C3 (amended): the conflict detector never reports a conflict
between a medical proposal and nursing-typed same-day appointments, nor
between a nursing proposal and medical-typed ones, whatever the times;
an unclassified proposed type never conflicts with anything; and
classification is case-insensitive (it depends only on the lowercased
type), though not fully accent-insensitive. -/
theorem conflict_track_spec (newType : String) (newStart : Int)
    (types : List AppointmentType) (appts : List Appointment) :
    (isMedicalType newType = true →
      (∀ a ∈ appts, isNursingType a.type = true) →
      hasConflict newType newStart types appts = false) ∧
    (isNursingType newType = true →
      (∀ a ∈ appts, isMedicalType a.type = true) →
      hasConflict newType newStart types appts = false) ∧
    (isMedicalType newType = false → isNursingType newType = false →
      hasConflict newType newStart types appts = false) ∧
    (∀ s u : String, jsToLower s = jsToLower u →
      isMedicalType s = isMedicalType u ∧ isNursingType s = isNursingType u) := by
  refine ⟨?_, ?_, ?_, ?_⟩
  · intro hm hall
    unfold hasConflict
    rw [List.any_eq_false]
    intro a ha
    simp only [Bool.not_eq_true]
    cases hov : (newStart < parseTime (takeChars 5 a.time) + getTypeDuration a.type types &&
        newStart + getTypeDuration newType types > parseTime (takeChars 5 a.time)) with
    | false => simp [hov]
    | true => simp [hov, hm, nursing_not_medical (hall a ha)]
  · intro hn hall
    unfold hasConflict
    rw [List.any_eq_false]
    intro a ha
    simp only [Bool.not_eq_true]
    cases hov : (newStart < parseTime (takeChars 5 a.time) + getTypeDuration a.type types &&
        newStart + getTypeDuration newType types > parseTime (takeChars 5 a.time)) with
    | false => simp [hov]
    | true => simp [hov, hn, nursing_not_medical hn, medical_not_nursing (hall a ha)]
  · intro hm hn
    unfold hasConflict
    rw [List.any_eq_false]
    intro a ha
    simp only [Bool.not_eq_true]
    cases hov : (newStart < parseTime (takeChars 5 a.time) + getTypeDuration a.type types &&
        newStart + getTypeDuration newType types > parseTime (takeChars 5 a.time)) with
    | false => simp [hov]
    | true => simp [hov, hm, hn]
  · intro s u hsu
    constructor
    · unfold isMedicalType
      rw [hsu]
    · unfold isNursingType
      rw [hsu]

/-- Witness for C3: a medical "Consulta" proposal at the same instant
as an existing nursing "Aplicação" appointment yields no conflict. -/
theorem conflict_track_spec_witness :
    hasConflict "Consulta" 600 []
      [⟨"a1", "p1", "Aplicação", "2024-03-04", "10:00:00", "Enf",
        "scheduled", ""⟩] = false :=
  (conflict_track_spec "Consulta" 600 []
      [⟨"a1", "p1", "Aplicação", "2024-03-04", "10:00:00", "Enf",
        "scheduled", ""⟩]).1 (by decide)
    (by intro a ha; simp at ha; rw [ha]; decide)

/-- C1 counterexample: the availability variant that `routes.ts`
actually imports and serves (`agendaService.getAvailableSlots`) applies
NEITHER of the spec's step-5 filters.  With 2024-03-04 (a Monday) as
today and now = 10:00 (600 minutes), it still lists "09:00"
(`slotStart <= now`), and it lists it even though a blocking
"scheduled" appointment at 09:15 of default duration 30 occupies
[09:15, 09:45), which overlaps [09:00, 09:30): its occupied test is
exact `date_HH:MM` key equality, not interval overlap. -/
theorem availability_counterexample :
    ("09:00" ∈ (agendaAvailableForDay "2024-03-04" 1
      [⟨"a1", "p1", "Consulta", "2024-03-04", "09:15:00", "Dr",
        "scheduled", ""⟩]).getD []) ∧
    timeToMinutes "09:00" ≤ 600 ∧
    BLOCKING_STATUSES.contains (jsToLower "scheduled") = true ∧
    intervalsOverlap (timeToMinutes "09:00") (timeToMinutes "09:00" + 30)
      (timeToMinutes "09:15") (timeToMinutes "09:15" + 30) = true := by
  refine ⟨by decide, by decide, by decide, by decide⟩

/-- C1 (amended, for the duration-aware variant
`patientService.getAvailableSlots`): a slot appears in a weekday's
available list iff it belongs to the grid, is strictly later than `now`
when the day is today, and its `[slotStart, slotStart+requestedDuration)`
interval overlaps no occupied interval of that date (built from the
blocking-status appointments, irrespective of track); the list is in
strictly ascending time order. -/
theorem availability_spec (dateStr : String) (weekday : Nat)
    (isToday : Bool) (nowMinutes : Int) (appointments : List Appointment)
    (types : List AppointmentType) (tipo : Option String)
    (slots : List String)
    (h : patientAvailableForDay dateStr weekday isToday nowMinutes
      appointments types tipo = some slots) :
    (∀ slot, slot ∈ slots ↔
      (slot ∈ generateTimeSlotsForDay weekday ∧
       (isToday = true → nowMinutes < timeToMinutes slot) ∧
       (∀ i ∈ getOccupiedIntervals appointments types, i.date = dateStr →
         intervalsOverlap (timeToMinutes slot)
           (timeToMinutes slot + resolveRequestedDuration tipo types)
           i.startMinutes i.endMinutes = false))) ∧
    List.Pairwise (fun a b => timeToMinutes a < timeToMinutes b) slots := by
  by_cases hw : isWeekdayNum weekday = true
  · simp only [patientAvailableForDay, hw, if_true, Option.some.injEq] at h
    subst h
    constructor
    · intro slot
      constructor
      · intro hs
        obtain ⟨hg, hp⟩ := List.mem_filter.mp hs
        refine ⟨hg, ?_, ?_⟩
        · intro hit
          by_contra hno
          have hle : timeToMinutes slot ≤ nowMinutes := by omega
          have hc : (isToday && decide (timeToMinutes slot ≤ nowMinutes)) = true := by
            rw [hit]
            simp [hle]
          rw [hc] at hp
          simp at hp
        · intro i hi hdate
          cases hc : (isToday && decide (timeToMinutes slot ≤ nowMinutes)) with
          | true =>
            rw [hc] at hp
            simp at hp
          | false =>
            rw [hc] at hp
            simp only [Bool.false_eq_true, if_false, Bool.not_eq_true'] at hp
            rw [List.any_eq_false] at hp
            have := hp i (List.mem_filter.mpr ⟨hi, by simp [hdate]⟩)
            simpa using this
      · rintro ⟨hg, hpast, hocc⟩
        refine List.mem_filter.mpr ⟨hg, ?_⟩
        cases hc : (isToday && decide (timeToMinutes slot ≤ nowMinutes)) with
        | true =>
          exfalso
          rw [Bool.and_eq_true] at hc
          have h1 := hpast hc.1
          have h2 := of_decide_eq_true hc.2
          omega
        | false =>
          simp only [Bool.false_eq_true, if_false, Bool.not_eq_true']
          rw [List.any_eq_false]
          intro i hif
          obtain ⟨hi, hq⟩ := List.mem_filter.mp hif
          have hdate : i.date = dateStr := by simpa using hq
          simp [hocc i hi hdate]
    · exact List.Pairwise.sublist (List.filter_sublist _) (grid_sorted weekday)
  · simp only [patientAvailableForDay, hw] at h
    simp at h hw

/-- Witness for C1: a Friday query with no appointments returns the
whole Friday grid, in ascending order, and 09:00 satisfies the slot
characterization. -/
theorem availability_spec_witness :
    patientAvailableForDay "2024-03-08" 5 false 0 [] [] none =
      some fridayGrid ∧
    ("09:00" ∈ fridayGrid ↔
      ("09:00" ∈ generateTimeSlotsForDay 5 ∧
       (false = true → (0 : Int) < timeToMinutes "09:00") ∧
       (∀ i ∈ getOccupiedIntervals [] [], i.date = "2024-03-08" →
         intervalsOverlap (timeToMinutes "09:00")
           (timeToMinutes "09:00" + resolveRequestedDuration none [])
           i.startMinutes i.endMinutes = false))) ∧
    List.Pairwise (fun a b => timeToMinutes a < timeToMinutes b) fridayGrid :=
  ⟨by decide,
   ((availability_spec "2024-03-08" 5 false 0 [] [] none fridayGrid
      (by decide)).1 "09:00"),
   (availability_spec "2024-03-08" 5 false 0 [] [] none fridayGrid
      (by decide)).2⟩

/-- C10: for any table state, rescheduling an existing appointment id
through the public endpoint succeeds whatever the current status is
(including the terminal "cancelled" and "attended"), overwrites date
and time, sets the status back to "scheduled", and preserves the other
fields and the table size; the handler performs no schedule validation
and no conflict detection (it reads nothing but the appointment ids). -/
theorem reschedule_spec (appts : List Appointment) (id data hora : String)
    (a : Appointment) (ha : a ∈ appts) (hid : a.id = id) :
    ∃ s, alterarAgendamento appts id data hora = some s ∧
      { a with date := data, time := hora, status := "scheduled" } ∈ s ∧
      s.length = appts.length := by
  unfold alterarAgendamento
  cases hf : appts.find? (fun x => x.id == id) with
  | none =>
    exfalso
    rw [List.find?_eq_none] at hf
    exact hf a ha (by simp [hid])
  | some x =>
    refine ⟨_, rfl, ?_, by simp [rescheduleUpdate]⟩
    unfold rescheduleUpdate
    have he : (fun y : Appointment =>
        if y.id == id then { y with date := data, time := hora, status := "scheduled" }
        else y) a =
        { a with date := data, time := hora, status := "scheduled" } := by
      simp [hid]
    exact he ▸ List.mem_map_of_mem _ ha

/-- Witness for C10: a CANCELLED appointment is rescheduled onto
2024-03-05 10:00 and resurrected as "scheduled", although another
non-cancelled same-track ("Retorno", medical, like "Consulta")
appointment already occupies 2024-03-05 10:00–10:30 — the overlap the
booking-time conflict detector would reject (`hasConflict` on the
same-day table is true), violating the aggregate no-overlap
invariant. -/
theorem reschedule_spec_witness :
    (∃ s, alterarAgendamento
        [⟨"a1", "p1", "Consulta", "2024-03-04", "10:00:00", "Dr",
          "cancelled", ""⟩,
         ⟨"a2", "p2", "Retorno", "2024-03-05", "10:00:00", "Dr",
          "scheduled", ""⟩] "a1" "2024-03-05" "10:00:00" = some s ∧
      (⟨"a1", "p1", "Consulta", "2024-03-05", "10:00:00", "Dr",
        "scheduled", ""⟩ : Appointment) ∈ s ∧
      s.length = 2) ∧
    hasConflict "Consulta" (timeToMinutes "10:00") []
      (sameDayNonCancelled
        [⟨"a2", "p2", "Retorno", "2024-03-05", "10:00:00", "Dr",
          "scheduled", ""⟩] "2024-03-05") = true :=
  ⟨reschedule_spec
      [⟨"a1", "p1", "Consulta", "2024-03-04", "10:00:00", "Dr",
        "cancelled", ""⟩,
       ⟨"a2", "p2", "Retorno", "2024-03-05", "10:00:00", "Dr",
        "scheduled", ""⟩] "a1" "2024-03-05" "10:00:00"
      ⟨"a1", "p1", "Consulta", "2024-03-04", "10:00:00", "Dr",
        "cancelled", ""⟩ (by decide) rfl,
   by decide⟩
